import Mathlib

/-!
Shallow embedding of the CoInvest ledger core: the data model (`types.ts`),
the allocation engine (`handleFormSubmit` in the Projects component),
the App-level state handlers (`App.tsx`), the dashboard aggregation
(`Dashboard.stats`) and the partner-summary share computation.

Conventions of the embedding:
* JS numbers that hold currency values are modelled as rationals (`ℚ`);
  the arithmetic performed by the source (sums, differences, one division,
  `Math.abs`) is exact on the inputs in scope.
* A text input holding a number is modelled as `Option ℚ`: `none` is the
  empty field (falsy in JS, so `!transAmount` rejects exactly `none`);
  `some q` is a non-empty field whose `parseFloat` is `q` (the inputs are
  `type="number"`, so a non-empty value parses to a number).
* The split map `Record<string, string>` is modelled as an association
  list `List (String × Option ℚ)`; `none` models a sub-field whose
  `parseFloat` is `NaN` (empty or non-numeric). JS object keys are unique,
  which is why building `sourcesToProcess` by `filterMap` instead of
  repeated keyed assignment agrees with the source on all reachable inputs.
* `undefined` for an optional string field is `none : Option String`.
-/

inductive TransactionType where
  | INVESTMENT
  | INCOME
  | EXPENSE
  | WITHDRAWAL
deriving DecidableEq

structure Partner where
  id : String
  name : String
  avatar : String
  color : String
deriving DecidableEq

inductive ProjectStatus where
  | active
  | completed
  | planning
deriving DecidableEq

structure Project where
  id : String
  name : String
  description : String
  status : ProjectStatus
  startDate : String
deriving DecidableEq

structure Transaction where
  id : String
  projectId : String
  partnerId : Option String
  type : TransactionType
  amount : ℚ
  date : String
  note : String
deriving DecidableEq

structure AppState where
  partners : List Partner
  projects : List Project
  transactions : List Transaction
deriving DecidableEq

/-- A transaction record without its `id`, i.e. the TS type
`Omit<Transaction, 'id'>` passed to `onAddTransaction`. -/
structure TxDraft where
  projectId : String
  type : TransactionType
  amount : ℚ
  date : String
  note : String
  partnerId : Option String
deriving DecidableEq

/-- JS truthiness of an optional string: `undefined` and the empty string
are falsy, any other string is truthy. -/
def strTruthy (o : Option String) : Bool :=
  o.getD "" != ""

/-- The value `parseFloat(val) || 0` used by `calculateSplitTotal`:
`NaN` (modelled as `none`) becomes `0`, a parsed number stays itself
(`0 || 0` is `0`, so `Option.getD` is exact). -/
def parsedOr0 (v : Option ℚ) : ℚ :=
  v.getD 0

/-- `calculateSplitTotal` from the Projects component: the sum of
`parseFloat(val) || 0` over all split-map values. -/
def calculateSplitTotal (splits : List (String × Option ℚ)) : ℚ :=
  (splits.map (fun kv => parsedOr0 kv.2)).sum

/-- The `sourcesToProcess` record built in split mode: each entry keeps its
parsed amount `amt = parseFloat(val)` exactly when `amt > 0`. -/
def splitSources (splits : List (String × Option ℚ)) : List (String × ℚ) :=
  splits.filterMap (fun kv =>
    match kv.2 with
    | some q => if 0 < q then some (kv.1, q) else none
    | none => none)

/-- `data.projects.find(p => p.id === pid)?.name`, where an absent project
renders as the string "undefined" inside a JS template literal. -/
def findProjectName (data : AppState) (pid : String) : String :=
  ((data.projects.find? (fun p => p.id == pid)).map Project.name).getD "undefined"

/-- `data.partners.find(p => p.id === pid)?.name` with the same
"undefined" rendering. -/
def findPartnerName (data : AppState) (pid : String) : String :=
  ((data.partners.find? (fun p => p.id == pid)).map Partner.name).getD "undefined"

/-- The body of the `sourcesToProcess` loop in `handleFormSubmit`
(creation path): given one funding source key and its amount, the list of
`onAddTransaction` drafts emitted for it.  A key that is a project id
emits the pair of cross-project entries; a partner id emits one direct
payment entry carrying the partner id; anything else is the central pool. -/
def processSource (data : AppState) (selectedProjectId : String)
    (transDate transNote : String) (isSplitMode : Bool)
    (sourceKey : String) (amount : ℚ) : List TxDraft :=
  if data.projects.any (fun p => p.id == sourceKey) then
    [ { projectId := selectedProjectId, type := .EXPENSE, amount := amount,
        date := transDate,
        note := transNote ++ " (ดึงเงินจากโครงการ: " ++ findProjectName data sourceKey ++ ")",
        partnerId := none },
      { projectId := sourceKey, type := .EXPENSE, amount := amount,
        date := transDate,
        note := "(นำเงินไปหมุนให้โครงการ: " ++ findProjectName data selectedProjectId ++ ") " ++ transNote,
        partnerId := none } ]
  else if data.partners.any (fun p => p.id == sourceKey) then
    [ { projectId := selectedProjectId, type := .EXPENSE, amount := amount,
        date := transDate,
        note := if isSplitMode then transNote ++ " (จ่ายโดย " ++ findPartnerName data sourceKey ++ ")" else transNote,
        partnerId := some sourceKey } ]
  else
    [ { projectId := selectedProjectId, type := .EXPENSE, amount := amount,
        date := transDate,
        note := if isSplitMode then transNote ++ " (กองกลาง)" else transNote,
        partnerId := none } ]

/-- The creation path of `handleFormSubmit`: `none` models an early
`return` (rejection, no `onAddTransaction` issued), `some ds` models the
emission of exactly the drafts `ds`, in order.  The guard
`!selectedProjectId || !transAmount` rejects a null/empty project id and
an empty amount field.  In split mode the tolerance check
`Math.abs(splitTotal - totalAmount) > 1` rejects before anything is
created; the creation path always emits EXPENSE entries (the source does
not consult the transaction-type tab here). -/
def handleFormSubmitCreate (data : AppState) (selectedProjectId : Option String)
    (transAmount : Option ℚ) (transDate transNote : String) (isSplitMode : Bool)
    (splitAmounts : List (String × Option ℚ)) (transPartner : String) :
    Option (List TxDraft) :=
  match selectedProjectId, transAmount with
  | some selP, some totalAmount =>
    if selP == "" then none
    else if isSplitMode then
      if 1 < |calculateSplitTotal splitAmounts - totalAmount| then none
      else some ((splitSources splitAmounts).flatMap
        (fun kv => processSource data selP transDate transNote true kv.1 kv.2))
    else
      let sourceKey := if transPartner == "" then "POOL" else transPartner
      some (processSource data selP transDate transNote false sourceKey totalAmount)
  | _, _ => none

/-- Sum of the amounts of the emitted drafts recorded on project `pid`. -/
def sumAmountsOn (pid : String) (ds : List TxDraft) : ℚ :=
  ((ds.filter (fun d => d.projectId == pid)).map TxDraft.amount).sum

/-- `handleAddTransaction` in `App.tsx` assigns each draft a fresh
client-generated id; a supply of ids is passed explicitly here. -/
def assignIds (ids : List String) (ds : List TxDraft) : List Transaction :=
  List.zipWith
    (fun i d => { id := i, projectId := d.projectId, partnerId := d.partnerId,
                  type := d.type, amount := d.amount, date := d.date, note := d.note })
    ids ds

/-- One form submission (creation path) applied to the local snapshot:
a rejection leaves the snapshot untouched, otherwise every emitted draft
is appended by `handleAddTransaction` (optimistic local update). -/
def applySubmitCreate (data : AppState) (selectedProjectId : Option String)
    (transAmount : Option ℚ) (transDate transNote : String) (isSplitMode : Bool)
    (splitAmounts : List (String × Option ℚ)) (transPartner : String)
    (ids : List String) : AppState :=
  match handleFormSubmitCreate data selectedProjectId transAmount transDate transNote
      isSplitMode splitAmounts transPartner with
  | none => data
  | some ds => { data with transactions := data.transactions ++ assignIds ids ds }

/-- `handleDeleteTransaction` in `App.tsx` (local optimistic part):
remove the transaction with the given id, nothing else. -/
def handleDeleteTransactionLocal (s : AppState) (tid : String) : AppState :=
  { s with transactions := s.transactions.filter (fun t => !(t.id == tid)) }

/-- `handleDeletePartner` in `App.tsx` (local part): if any transaction
references the partner the call alerts and returns without touching the
state; otherwise the partner is filtered out. -/
def handleDeletePartnerLocal (s : AppState) (pid : String) : AppState :=
  if s.transactions.any (fun t => t.partnerId == some pid) then s
  else { s with partners := s.partners.filter (fun p => !(p.id == pid)) }

/-- The edit path of `handleFormSubmit`: the update record handed to
`onUpdateTransaction` (same id `editingId`, the note annotated and the
partner id cleared when the chosen source is a project), together with the
offsetting draft handed to `onAddTransaction` when — and only when — the
chosen funding source is an existing project. -/
def handleFormSubmitEdit (data : AppState) (editingId selectedProjectId : String)
    (transType : TransactionType) (totalAmount : ℚ)
    (transDate transNote : String) (transPartner : String) :
    Transaction × Option TxDraft :=
  let sourceProject := data.projects.find? (fun p => p.id == transPartner)
  let upd : Transaction :=
    { id := editingId, projectId := selectedProjectId, type := transType,
      amount := totalAmount, date := transDate,
      note := match sourceProject with
        | some sp => transNote ++ " (แก้ไข: ดึงเงินจาก " ++ sp.name ++ ")"
        | none => transNote,
      partnerId := match sourceProject with
        | some _ => none
        | none => if transPartner == "" then none else some transPartner }
  let off : Option TxDraft := sourceProject.map (fun sp =>
    { projectId := sp.id, type := .EXPENSE, amount := totalAmount,
      date := transDate,
      note := "(ตัดยอดจากการแก้ไข) เงินถูกยืมไปโครงการ: " ++ findProjectName data selectedProjectId ++ " - " ++ transNote,
      partnerId := none })
  (upd, off)

/-- Modelled from the spec: the App-level handler behind
`onUpdateTransaction` is not present under `src/` (`App.tsx` wires only
add and delete); the spec's edit semantics ("update the original") and its
UPDATE merge rule ("an UPDATE replaces by id") give replacement of the
record with the matching id. -/
def applyUpdateLocal (s : AppState) (t : Transaction) : AppState :=
  { s with transactions := s.transactions.map (fun x => if x.id == t.id then t else x) }

/-- One form submission on the edit path applied to the local snapshot:
the `handleFormSubmit` guard, then the in-place update, then the append of
the offsetting entry (with a fresh id) when the source is a project. -/
def applySubmitEdit (data : AppState) (editingId : String)
    (selectedProjectId : Option String) (transAmount : Option ℚ)
    (transType : TransactionType) (transDate transNote : String)
    (transPartner : String) (freshId : String) : AppState :=
  match selectedProjectId, transAmount with
  | some selP, some totalAmount =>
    if selP == "" then data
    else
      let r := handleFormSubmitEdit data editingId selP transType totalAmount
        transDate transNote transPartner
      let s1 := applyUpdateLocal data r.1
      match r.2 with
      | some d => { s1 with transactions := s1.transactions ++ assignIds [freshId] [d] }
      | none => s1
  | _, _ => data

/-- The change-event payload of the realtime channel, per entity table. -/
inductive RTEvent (α : Type) where
  | INSERT (newRecord : α)
  | UPDATE (newRecord : α)
  | DELETE (oldRecord : α)

/-- `handleRealtimeUpdate` in `App.tsx`, generic in the entity list (the
source dispatches on `table : keyof AppState`; `getId` plays the role of
`item.id`; the record is taken after the snake-case field mapping).
INSERT appends unless the id is already present, UPDATE replaces by id,
DELETE removes by id. -/
def applyRTEvent {α : Type} (getId : α → String) (l : List α) :
    RTEvent α → List α
  | .INSERT rec => if l.any (fun item => getId item == getId rec) then l else l ++ [rec]
  | .UPDATE rec => l.map (fun item => if getId item == getId rec then rec else item)
  | .DELETE old => l.filter (fun item => !(getId item == getId old))

/-- The transactions-table instance of the realtime merge, folding an
event into the snapshot. -/
def handleRealtimeTransactions (s : AppState) (e : RTEvent Transaction) : AppState :=
  { s with transactions := applyRTEvent Transaction.id s.transactions e }

/-- The accumulator step of the `forEach` in `Dashboard.stats`:
`(totalInvestment, totalIncome, totalExpense)`. An EXPENSE always adds to
totalExpense and additionally to totalInvestment when it carries a
(truthy) partner id. -/
def statsStep (acc : ℚ × ℚ × ℚ) (t : Transaction) : ℚ × ℚ × ℚ :=
  match t.type with
  | .INVESTMENT => (acc.1 + t.amount, acc.2.1, acc.2.2)
  | .EXPENSE =>
      (if strTruthy t.partnerId then acc.1 + t.amount else acc.1,
       acc.2.1, acc.2.2 + t.amount)
  | .INCOME => (acc.1, acc.2.1 + t.amount, acc.2.2)
  | .WITHDRAWAL => acc

structure Stats where
  totalInvestment : ℚ
  totalIncome : ℚ
  totalExpense : ℚ
  netProfit : ℚ
deriving DecidableEq

/-- `Dashboard.stats`: the fold over the transaction snapshot, with
`netProfit = totalIncome - totalExpense`. -/
def dashboardStats (ts : List Transaction) : Stats :=
  let acc := ts.foldl statsStep (0, 0, 0)
  { totalInvestment := acc.1, totalIncome := acc.2.1,
    totalExpense := acc.2.2, netProfit := acc.2.1 - acc.2.2 }

/-- Sum of `amount` over the transactions satisfying `p` — the
specification-side aggregate `sum(amount where ...)` used to state the
global-totals claim against the fold above. -/
def sumAmountsWhere (ts : List Transaction) (p : Transaction → Bool) : ℚ :=
  ((ts.filter p).map Transaction.amount).sum

/-- `globalTotalInvestment` in the PartnerSummary component: the reduce
adding INVESTMENT amounts and EXPENSE-with-partner amounts. -/
def globalTotalInvestment (ts : List Transaction) : ℚ :=
  ts.foldl
    (fun sum t =>
      if t.type == .INVESTMENT then sum + t.amount
      else if t.type == .EXPENSE && strTruthy t.partnerId then sum + t.amount
      else sum)
    0

/-- `globalPartnerInvested` in the PartnerSummary component: the amounts
of this partner's INVESTMENT and EXPENSE transactions, summed. -/
def globalPartnerInvested (ts : List Transaction) (pid : String) : ℚ :=
  ((ts.filter (fun t =>
      t.partnerId == some pid &&
        (t.type == .INVESTMENT || t.type == .EXPENSE))).map Transaction.amount).sum

/-- `sharePercent` in the PartnerSummary component: guarded division by
the global total investment. -/
def sharePercent (ts : List Transaction) (pid : String) : ℚ :=
  if 0 < globalTotalInvestment ts then
    globalPartnerInvested ts pid / globalTotalInvestment ts * 100
  else 0

/-! Test fixtures: a small snapshot with one partner and two projects,
used by the concrete witnesses and counterexamples. -/

def projP : Project :=
  { id := "projP", name := "Coffee Shop", description := "", status := .active,
    startDate := "2023-01-15" }

def projQ : Project :=
  { id := "projQ", name := "Second Branch", description := "", status := .planning,
    startDate := "2023-02-01" }

def partnerX : Partner :=
  { id := "px", name := "Partner X", avatar := "x", color := "#818CF8" }

def baseState : AppState :=
  { partners := [partnerX], projects := [projP, projQ], transactions := [] }

/-! Auxiliary list lemmas. -/

theorem sumAmountsWhere_cons (t : Transaction) (ts : List Transaction)
    (p : Transaction → Bool) :
    sumAmountsWhere (t :: ts) p =
      (if p t then t.amount else 0) + sumAmountsWhere ts p := by
  by_cases h : p t <;> simp [sumAmountsWhere, List.filter_cons, h]

theorem sumAmountsOn_append (pid : String) (a b : List TxDraft) :
    sumAmountsOn pid (a ++ b) = sumAmountsOn pid a + sumAmountsOn pid b := by
  simp [sumAmountsOn, List.filter_append]

theorem sum_map_zero {α : Type} (l : List α) :
    (l.map (fun _ => (0 : ℚ))).sum = 0 := by
  induction l with
  | nil => simp
  | cons a l ih => simp [ih]

theorem sum_map_add {α : Type} (l : List α) (f g : α → ℚ) :
    (l.map (fun x => f x + g x)).sum = (l.map f).sum + (l.map g).sum := by
  induction l with
  | nil => simp
  | cons a l ih => simp [ih]; ring

/-- C3: in split mode, whenever the split total differs from the requested
amount by strictly more than 1 currency unit, the request is rejected —
for any project selection — before any `onAddTransaction`: no transaction
record of any kind is created and the transaction list is unchanged. -/
theorem c3_split_tolerance_reject (data : AppState) (sel : Option String)
    (A : ℚ) (d n : String) (splits : List (String × Option ℚ)) (pk : String)
    (ids : List String)
    (hval : 1 < |calculateSplitTotal splits - A|) :
    handleFormSubmitCreate data sel (some A) d n true splits pk = none ∧
    applySubmitCreate data sel (some A) d n true splits pk ids = data ∧
    (applySubmitCreate data sel (some A) d n true splits pk ids).transactions =
      data.transactions := by
  have h : handleFormSubmitCreate data sel (some A) d n true splits pk = none := by
    cases sel with
    | none => rfl
    | some P => cases hP : (P == "") <;> simp [handleFormSubmitCreate, hP, hval]
  refine ⟨h, by simp [applySubmitCreate, h], by simp [applySubmitCreate, h]⟩

/-- Witness for C3: a split of 400 against a requested amount of 1000 is
rejected without touching the snapshot. -/
theorem c3_witness :
    handleFormSubmitCreate baseState (some "projP") (some 1000) "2023-03-01" ""
        true [("POOL", some 400)] "" = none ∧
    applySubmitCreate baseState (some "projP") (some 1000) "2023-03-01" ""
        true [("POOL", some 400)] "" ["tNew"] = baseState ∧
    (applySubmitCreate baseState (some "projP") (some 1000) "2023-03-01" ""
        true [("POOL", some 400)] "" ["tNew"]).transactions =
      baseState.transactions :=
  c3_split_tolerance_reject baseState (some "projP") 1000 "2023-03-01" ""
    [("POOL", some 400)] "" ["tNew"] (by norm_num [calculateSplitTotal, parsedOr0])

/-- C8: a partner referenced by any transaction cannot be deleted; the
call returns with the snapshot (partners and transactions) unchanged. -/
theorem c8_referential_guard (s : AppState) (pid : String)
    (h : ∃ t ∈ s.transactions, t.partnerId = some pid) :
    handleDeletePartnerLocal s pid = s := by
  obtain ⟨t, ht, hp⟩ := h
  have hany : s.transactions.any (fun t => t.partnerId == some pid) = true :=
    List.any_eq_true.mpr ⟨t, ht, by simp [hp]⟩
  simp [handleDeletePartnerLocal, hany]

def refTx : Transaction :=
  { id := "t1", projectId := "projP", partnerId := some "px",
    type := .INVESTMENT, amount := 500000, date := "2023-01-15", note := "" }

def refState : AppState :=
  { partners := [partnerX], projects := [projP], transactions := [refTx] }

/-- Witness for C8: deleting the partner referenced by `refTx` is a no-op. -/
theorem c8_witness : handleDeletePartnerLocal refState "px" = refState :=
  c8_referential_guard refState "px" ⟨refTx, by decide, by decide⟩

/-- C9: the realtime merge is idempotent per event: an INSERT whose id is
already present is a no-op (so applying the same INSERT twice equals
applying it once), an UPDATE replaces the record with the matching id
(same length, unmatched records kept, matched ones become the new record),
and a DELETE removes exactly the records with the matching id. -/
theorem c9_realtime_merge {α : Type} (getId : α → String) (l : List α) (r o : α) :
    ((∃ x ∈ l, getId x = getId r) → applyRTEvent getId l (.INSERT r) = l) ∧
    (applyRTEvent getId (applyRTEvent getId l (.INSERT r)) (.INSERT r) =
      applyRTEvent getId l (.INSERT r)) ∧
    ((applyRTEvent getId l (.UPDATE r)).length = l.length ∧
      ∀ x ∈ l, (getId x = getId r → r ∈ applyRTEvent getId l (.UPDATE r)) ∧
        (getId x ≠ getId r → x ∈ applyRTEvent getId l (.UPDATE r))) ∧
    (∀ x, x ∈ applyRTEvent getId l (.DELETE o) ↔ x ∈ l ∧ getId x ≠ getId o) := by
  refine ⟨?_, ?_, ⟨?_, ?_⟩, ?_⟩
  · intro h
    obtain ⟨x, hx, hid⟩ := h
    have hany : l.any (fun item => getId item == getId r) = true :=
      List.any_eq_true.mpr ⟨x, hx, by simp [hid]⟩
    simp [applyRTEvent, hany]
  · cases hany : l.any (fun item => getId item == getId r) with
    | true => simp [applyRTEvent, hany]
    | false =>
      have h2 : (l ++ [r]).any (fun item => getId item == getId r) = true :=
        List.any_eq_true.mpr ⟨r, by simp, by simp⟩
      simp [applyRTEvent, hany, h2]
  · simp [applyRTEvent]
  · intro x hx
    constructor
    · intro hid
      exact List.mem_map.mpr ⟨x, hx, by simp [hid]⟩
    · intro hid
      exact List.mem_map.mpr ⟨x, hx, by simp [hid]⟩
  · intro x
    simp [applyRTEvent, List.mem_filter]

def echoTx : Transaction :=
  { id := "t1", projectId := "projP", partnerId := some "px",
    type := .INVESTMENT, amount := 500000, date := "2023-01-15", note := "echo" }

/-- Witness for C9: the remote echo of an optimistically inserted record
is suppressed. -/
theorem c9_witness :
    applyRTEvent Transaction.id [refTx] (.INSERT echoTx) = [refTx] :=
  (c9_realtime_merge Transaction.id [refTx] echoTx echoTx).1
    ⟨refTx, by decide, by decide⟩

/-- C2: an allocation funded from another project `Q` — either as the
single source or as one split entry (which passes through the split
path's tolerance check and `amt > 0` filter) — emits exactly two EXPENSE
drafts of the same amount, one on the target project `P` and one on `Q`,
both without a partner id; and deleting a transaction removes only the
record with that id, so deleting one side of the pair never deletes the
other. -/
theorem c2_cross_project_symmetry (data : AppState) (P Q : String) (A a : ℚ)
    (d n : String) (splits0 xs ys : List (String × Option ℚ)) (pk : String)
    (hP : P ≠ "") (hQ : Q ≠ "")
    (hproj : data.projects.any (fun p => p.id == Q) = true)
    (ha : 0 < a)
    (htol : |calculateSplitTotal (xs ++ (Q, some a) :: ys) - A| ≤ 1) :
    handleFormSubmitCreate data (some P) (some A) d n false splits0 Q =
      some
        [ { projectId := P, type := .EXPENSE, amount := A, date := d,
            note := n ++ " (ดึงเงินจากโครงการ: " ++ findProjectName data Q ++ ")",
            partnerId := none },
          { projectId := Q, type := .EXPENSE, amount := A, date := d,
            note := "(นำเงินไปหมุนให้โครงการ: " ++ findProjectName data P ++ ") " ++ n,
            partnerId := none } ] ∧
    handleFormSubmitCreate data (some P) (some A) d n true
        (xs ++ (Q, some a) :: ys) pk =
      some
        ((splitSources xs).flatMap
            (fun kv => processSource data P d n true kv.1 kv.2) ++
          ([ { projectId := P, type := .EXPENSE, amount := a, date := d,
               note := n ++ " (ดึงเงินจากโครงการ: " ++ findProjectName data Q ++ ")",
               partnerId := none },
             { projectId := Q, type := .EXPENSE, amount := a, date := d,
               note := "(นำเงินไปหมุนให้โครงการ: " ++ findProjectName data P ++ ") " ++ n,
               partnerId := none } ] ++
            (splitSources ys).flatMap
              (fun kv => processSource data P d n true kv.1 kv.2))) ∧
    (∀ (s : AppState) (tid : String) (t : Transaction),
      t ∈ s.transactions → t.id ≠ tid →
      t ∈ (handleDeleteTransactionLocal s tid).transactions) := by
  have hPb : (P == "") = false := by simp [hP]
  have hQb : (Q == "") = false := by simp [hQ]
  refine ⟨?_, ?_, ?_⟩
  · simp [handleFormSubmitCreate, hPb, hQb, processSource, hproj]
  · have hlt : ¬ (1 < |calculateSplitTotal (xs ++ (Q, some a) :: ys) - A|) :=
      not_lt.mpr htol
    have hsrc : splitSources (xs ++ (Q, some a) :: ys) =
        splitSources xs ++ (Q, a) :: splitSources ys := by
      simp [splitSources, List.filterMap_append, List.filterMap_cons, ha]
    have hmemQ : ∃ x ∈ data.projects, x.id = Q := by simpa using hproj
    simp [handleFormSubmitCreate, hPb, hlt, hsrc, List.flatMap_append,
      List.flatMap_cons, processSource, hproj, hmemQ]
  · intro s tid t ht hne
    simp [handleDeleteTransactionLocal, List.mem_filter, ht, hne]

/-- Witness for C2: funding 2000 on `projP` from `projQ` — once as the
single source and once as the sole split entry — produces the two equal
offsetting EXPENSE entries, neither carrying a partner id. -/
theorem c2_witness :
    ((handleFormSubmitCreate baseState (some "projP") (some 2000) "2023-03-01"
        "note" false [] "projQ").getD []).map
      (fun dr => (dr.projectId, dr.type, dr.amount, dr.partnerId)) =
      [("projP", .EXPENSE, 2000, none), ("projQ", .EXPENSE, 2000, none)] ∧
    ((handleFormSubmitCreate baseState (some "projP") (some 2000) "2023-03-01"
        "note" true [("projQ", some 2000)] "").getD []).map
      (fun dr => (dr.projectId, dr.type, dr.amount, dr.partnerId)) =
      [("projP", .EXPENSE, 2000, none), ("projQ", .EXPENSE, 2000, none)] := by
  have h := c2_cross_project_symmetry baseState "projP" "projQ" 2000 2000
    "2023-03-01" "note" [] [] [] ""
    (by decide) (by decide) (by decide) (by norm_num)
    (by norm_num [calculateSplitTotal, parsedOr0])
  have h2 := h.2.1
  simp only [List.nil_append] at h2
  refine ⟨?_, ?_⟩
  · rw [h.1]
    rfl
  · rw [h2]
    rfl

theorem foldl_statsStep_eq (ts : List Transaction) : ∀ acc : ℚ × ℚ × ℚ,
    ts.foldl statsStep acc =
      (acc.1 + sumAmountsWhere ts (fun t => t.type == .INVESTMENT) +
         sumAmountsWhere ts (fun t => t.type == .EXPENSE && strTruthy t.partnerId),
       acc.2.1 + sumAmountsWhere ts (fun t => t.type == .INCOME),
       acc.2.2 + sumAmountsWhere ts (fun t => t.type == .EXPENSE)) := by
  induction ts with
  | nil => intro acc; simp [sumAmountsWhere]
  | cons t ts ih =>
    intro acc
    rw [List.foldl_cons, ih]
    cases ht : t.type <;>
      by_cases hs : strTruthy t.partnerId <;>
        simp [statsStep, ht, hs, sumAmountsWhere_cons, Prod.ext_iff,
          add_assoc, add_comm, add_left_comm]

/-- C5: the dashboard global totals — totalInvestment is the sum of
INVESTMENT amounts plus the sum of EXPENSE-with-partnerId amounts (such an
EXPENSE counts toward both totalExpense and totalInvestment), totalIncome
is the sum of INCOME amounts, totalExpense the sum of EXPENSE amounts, and
netProfit = totalIncome - totalExpense. -/
theorem c5_global_totals (ts : List Transaction) :
    dashboardStats ts =
      { totalInvestment :=
          sumAmountsWhere ts (fun t => t.type == .INVESTMENT) +
            sumAmountsWhere ts (fun t => t.type == .EXPENSE && strTruthy t.partnerId),
        totalIncome := sumAmountsWhere ts (fun t => t.type == .INCOME),
        totalExpense := sumAmountsWhere ts (fun t => t.type == .EXPENSE),
        netProfit :=
          sumAmountsWhere ts (fun t => t.type == .INCOME) -
            sumAmountsWhere ts (fun t => t.type == .EXPENSE) } := by
  have h := foldl_statsStep_eq ts (0, 0, 0)
  have h0 : ((0, 0, 0) : ℚ × ℚ × ℚ) = 0 := rfl
  rw [h0] at h
  simp at h
  simp [dashboardStats, h]

theorem sumAmountsOn_processSource (data : AppState) (P d n : String) (m : Bool)
    (k : String) (a : ℚ) (hk : k ≠ P) :
    sumAmountsOn P (processSource data P d n m k a) = a := by
  have hkb : (k == P) = false := by simp [hk]
  unfold processSource
  split
  · simp [sumAmountsOn, hkb]
  · split <;> simp [sumAmountsOn]

theorem mem_splitSources_key (splits : List (String × Option ℚ))
    (kv : String × ℚ) (h : kv ∈ splitSources splits) :
    ∃ v, (kv.1, v) ∈ splits := by
  obtain ⟨⟨k0, v0⟩, hmem, hmk⟩ := List.mem_filterMap.mp h
  refine ⟨v0, ?_⟩
  cases v0 with
  | none => simp at hmk
  | some q =>
    by_cases hq : 0 < q
    · simp [hq] at hmk
      cases hmk
      simpa using hmem
    · simp [hq] at hmk

theorem sumAmountsOn_flatMap_sources (data : AppState) (P d n : String)
    (srcs : List (String × ℚ)) (hk : ∀ kv ∈ srcs, kv.1 ≠ P) :
    sumAmountsOn P
        (srcs.flatMap (fun kv => processSource data P d n true kv.1 kv.2)) =
      (srcs.map (fun kv => kv.2)).sum := by
  induction srcs with
  | nil => simp [sumAmountsOn]
  | cons kv srcs ih =>
    rw [List.flatMap_cons, sumAmountsOn_append, List.map_cons, List.sum_cons,
      sumAmountsOn_processSource data P d n true kv.1 kv.2 (hk kv (by simp)),
      ih (fun x hx => hk x (by simp [hx]))]

theorem splitSources_sum_eq_total (splits : List (String × Option ℚ))
    (hnn : ∀ kv ∈ splits, 0 ≤ parsedOr0 kv.2) :
    ((splitSources splits).map (fun kv => kv.2)).sum = calculateSplitTotal splits := by
  induction splits with
  | nil => simp [splitSources, calculateSplitTotal]
  | cons kv splits ih =>
    have htail : ∀ x ∈ splits, 0 ≤ parsedOr0 x.2 := fun x hx => hnn x (by simp [hx])
    have hhead : 0 ≤ parsedOr0 kv.2 := hnn kv (by simp)
    have ihh := ih htail
    simp only [splitSources, calculateSplitTotal, parsedOr0] at ihh ⊢
    cases hv : kv.2 with
    | none => simpa [List.filterMap_cons, hv] using ihh
    | some q =>
      by_cases hq : 0 < q
      · simp [List.filterMap_cons, hv, hq, ihh]
      · have hq0 : q = 0 :=
          le_antisymm (not_lt.mp hq) (by simpa [parsedOr0, hv] using hhead)
        subst hq0
        simp [List.filterMap_cons, hv, ihh]

/-- Counterexample to C1 as stated: the split `POOL: 1300, neg: -300`
against a requested amount of 1000 passes the tolerance check (its total
is 1000), yet the only created entry on the target project is the 1300
POOL expense — off by 300, far beyond the 1-unit tolerance. -/
theorem c1_counterexample :
    |calculateSplitTotal [("POOL", some 1300), ("neg", some (-300))] - 1000| ≤ 1 ∧
    handleFormSubmitCreate baseState (some "projP") (some 1000) "2023-04-01" "" true
        [("POOL", some 1300), ("neg", some (-300))] "" ≠ none ∧
    ¬ |sumAmountsOn "projP"
        ((handleFormSubmitCreate baseState (some "projP") (some 1000) "2023-04-01" ""
            true [("POOL", some 1300), ("neg", some (-300))] "").getD []) - 1000| ≤ 1 := by
  have h : handleFormSubmitCreate baseState (some "projP") (some 1000) "2023-04-01" ""
      true [("POOL", some 1300), ("neg", some (-300))] "" =
      some [ { projectId := "projP", type := .EXPENSE, amount := 1300,
               date := "2023-04-01", note := "" ++ " (กองกลาง)", partnerId := none } ] := by
    have htol : ¬ (1 < |calculateSplitTotal
        [("POOL", some 1300), ("neg", some (-300))] - (1000 : ℚ)|) := by
      norm_num [calculateSplitTotal, parsedOr0]
    simp [handleFormSubmitCreate, htol, splitSources, processSource,
      baseState, projP, projQ, partnerX]
  refine ⟨by norm_num [calculateSplitTotal, parsedOr0], by simp [h], ?_⟩
  rw [h]
  norm_num [sumAmountsOn]

/-- C1 (amended): for a split allocation that passes validation, whose
sub-amounts all parse non-negative, and whose source keys differ from the
target project id (the split form only offers POOL, partner ids and other
projects), the request is accepted and the sum of the EXPENSE amounts
created on the target project equals the requested amount within the
1-unit tolerance. -/
theorem c1_conservation_amended (data : AppState) (P : String) (A : ℚ)
    (d n pk : String) (splits : List (String × Option ℚ))
    (hP : P ≠ "")
    (hkeys : ∀ kv ∈ splits, kv.1 ≠ P)
    (hnn : ∀ kv ∈ splits, 0 ≤ parsedOr0 kv.2)
    (hval : |calculateSplitTotal splits - A| ≤ 1) :
    handleFormSubmitCreate data (some P) (some A) d n true splits pk ≠ none ∧
    |sumAmountsOn P
        ((handleFormSubmitCreate data (some P) (some A) d n true splits pk).getD [])
      - A| ≤ 1 := by
  have hPb : (P == "") = false := by simp [hP]
  have hlt : ¬ (1 < |calculateSplitTotal splits - A|) := not_lt.mpr hval
  have hres : handleFormSubmitCreate data (some P) (some A) d n true splits pk =
      some ((splitSources splits).flatMap
        (fun kv => processSource data P d n true kv.1 kv.2)) := by
    simp [handleFormSubmitCreate, hPb, hlt]
  rw [hres]
  refine ⟨by simp, ?_⟩
  have hk2 : ∀ kv ∈ splitSources splits, kv.1 ≠ P := by
    intro kv hkv
    obtain ⟨v, hv⟩ := mem_splitSources_key splits kv hkv
    exact hkeys (kv.1, v) hv
  rw [Option.getD_some,
    sumAmountsOn_flatMap_sources data P d n (splitSources splits) hk2,
    splitSources_sum_eq_total splits hnn]
  exact hval

/-- Witness for the amended C1: 1000 split as POOL 400 + partner 600 is
accepted and conserves the requested amount on the target project. -/
theorem c1_witness :
    handleFormSubmitCreate baseState (some "projP") (some 1000) "2023-04-02" "" true
        [("POOL", some 400), ("px", some 600)] "" ≠ none ∧
    |sumAmountsOn "projP"
        ((handleFormSubmitCreate baseState (some "projP") (some 1000) "2023-04-02" ""
            true [("POOL", some 400), ("px", some 600)] "").getD []) - 1000| ≤ 1 :=
  c1_conservation_amended baseState "projP" 1000 "2023-04-02" "" ""
    [("POOL", some 400), ("px", some 600)]
    (by decide) (by decide) (by decide)
    (by norm_num [calculateSplitTotal, parsedOr0])

/-- C10: a split-map entry whose value does not parse to a strictly
positive number contributes no processed source (hence no ledger entry),
while its parsed value still enters the split total used by the tolerance
check; consequently a validated split containing a negative sub-amount can
create EXPENSE entries on the target project summing to strictly more than
the requested amount plus the 1-unit tolerance (concretely: 100 requested,
POOL 150 and -50, creating 150 > 101 on the target). -/
theorem c10_nonpositive_split_entry (xs ys : List (String × Option ℚ))
    (k : String) (v : Option ℚ)
    (hv : ∀ q : ℚ, v = some q → q ≤ 0) :
    splitSources (xs ++ (k, v) :: ys) = splitSources (xs ++ ys) ∧
    calculateSplitTotal (xs ++ (k, v) :: ys) =
      calculateSplitTotal (xs ++ ys) + parsedOr0 v ∧
    (handleFormSubmitCreate baseState (some "projP") (some 100) "2023-05-01" "" true
        [("POOL", some 150), ("neg", some (-50))] "" ≠ none ∧
      100 + 1 < sumAmountsOn "projP"
        ((handleFormSubmitCreate baseState (some "projP") (some 100) "2023-05-01" ""
            true [("POOL", some 150), ("neg", some (-50))] "").getD [])) := by
  refine ⟨?_, ?_, ?_⟩
  · cases v with
    | none => simp [splitSources, List.filterMap_append, List.filterMap_cons]
    | some q =>
      have hq : ¬ 0 < q := not_lt.mpr (hv q rfl)
      simp [splitSources, List.filterMap_append, List.filterMap_cons, hq]
  · simp [calculateSplitTotal]
    ring
  · have h : handleFormSubmitCreate baseState (some "projP") (some 100) "2023-05-01" ""
        true [("POOL", some 150), ("neg", some (-50))] "" =
        some [ { projectId := "projP", type := .EXPENSE, amount := 150,
                 date := "2023-05-01", note := "" ++ " (กองกลาง)", partnerId := none } ] := by
      have htol : ¬ (1 < |calculateSplitTotal
          [("POOL", some 150), ("neg", some (-50))] - (100 : ℚ)|) := by
        norm_num [calculateSplitTotal, parsedOr0]
      simp [handleFormSubmitCreate, htol, splitSources, processSource,
        baseState, projP, projQ, partnerX]
    refine ⟨by simp [h], ?_⟩
    rw [h]
    norm_num [sumAmountsOn]

/-- Witness for C10: a negative sub-amount (-50) is dropped from the
processed sources while the tolerance check still passes, so the created
entries overshoot the requested 100 by more than the tolerance. -/
theorem c10_witness :
    handleFormSubmitCreate baseState (some "projP") (some 100) "2023-05-01" "" true
        [("POOL", some 150), ("neg", some (-50))] "" ≠ none :=
  (c10_nonpositive_split_entry [("POOL", some 150)] [] "neg" (some (-50))
    (by intro q hq; cases hq; norm_num)).2.2.1

/-- Counterexample to C4 as stated: a request with amount 0 (non-positive,
entered as the non-empty string "0") on an existing project is NOT
rejected — the single-source path creates one EXPENSE of amount 0 and the
transaction list changes. -/
theorem c4_counterexample :
    ((0 : ℚ) ≤ 0) ∧
    handleFormSubmitCreate baseState (some "projP") (some 0) "2023-06-01" "" false
        [] "" ≠ none ∧
    applySubmitCreate baseState (some "projP") (some 0) "2023-06-01" "" false
        [] "" ["tNew"] ≠ baseState := by
  have h : handleFormSubmitCreate baseState (some "projP") (some 0) "2023-06-01" ""
      false [] "" =
      some [ { projectId := "projP", type := .EXPENSE, amount := 0,
               date := "2023-06-01", note := "", partnerId := none } ] := by
    simp [handleFormSubmitCreate, processSource, baseState, projP, projQ, partnerX]
  refine ⟨le_refl 0, by simp [h], ?_⟩
  unfold applySubmitCreate
  rw [h]
  simp [baseState, assignIds]

/-- C4 (amended): only a missing project id (null or empty) or an empty
amount field makes the creation path reject; rejection happens before any
record is created, so the transaction list is unchanged and a multi-entry
funding spec is never partially applied.  A non-positive parsed amount is
not itself rejected (see the counterexample). -/
theorem c4_missing_fields_reject (data : AppState) (sel : Option String)
    (amt : Option ℚ) (d n : String) (m : Bool)
    (splits : List (String × Option ℚ)) (pk : String) (ids : List String)
    (h : sel.getD "" = "" ∨ amt = none) :
    handleFormSubmitCreate data sel amt d n m splits pk = none ∧
    applySubmitCreate data sel amt d n m splits pk ids = data := by
  have hnone : handleFormSubmitCreate data sel amt d n m splits pk = none := by
    cases sel with
    | none => cases amt <;> rfl
    | some s =>
      cases amt with
      | none => rfl
      | some a =>
        rcases h with h | h
        · simp at h
          simp [handleFormSubmitCreate, h]
        · cases h
  exact ⟨hnone, by simp [applySubmitCreate, hnone]⟩

/-- Witness for the amended C4: an empty amount field is rejected with no
state change. -/
theorem c4_witness :
    handleFormSubmitCreate baseState (some "projP") none "2023-06-02" "" false
        [] "" = none ∧
    applySubmitCreate baseState (some "projP") none "2023-06-02" "" false
        [] "" ["tNew"] = baseState :=
  c4_missing_fields_reject baseState (some "projP") none "2023-06-02" "" false
    [] "" ["tNew"] (Or.inr rfl)

/-- The amount a single transaction contributes to
`globalTotalInvestment`. -/
def qualAmount (t : Transaction) : ℚ :=
  if t.type == .INVESTMENT then t.amount
  else if t.type == .EXPENSE && strTruthy t.partnerId then t.amount
  else 0

theorem globalTotalInvestment_foldl (ts : List Transaction) : ∀ s : ℚ,
    ts.foldl
      (fun sum t =>
        if t.type == .INVESTMENT then sum + t.amount
        else if t.type == .EXPENSE && strTruthy t.partnerId then sum + t.amount
        else sum) s = s + (ts.map qualAmount).sum := by
  induction ts with
  | nil => intro s; simp
  | cons t ts ih =>
    intro s
    rw [List.foldl_cons, ih]
    by_cases h1 : t.type == .INVESTMENT
    · simp [h1, qualAmount]
      ring
    · by_cases h2 : t.type == .EXPENSE && strTruthy t.partnerId
      · simp [h1, h2, qualAmount]
        ring
      · simp [h1, h2, qualAmount]

theorem globalTotalInvestment_eq (ts : List Transaction) :
    globalTotalInvestment ts = (ts.map qualAmount).sum := by
  have h := globalTotalInvestment_foldl ts 0
  simpa [globalTotalInvestment] using h

theorem globalPartnerInvested_cons (t : Transaction) (ts : List Transaction)
    (pid : String) :
    globalPartnerInvested (t :: ts) pid =
      (if t.partnerId == some pid && (t.type == .INVESTMENT || t.type == .EXPENSE)
        then t.amount else 0) + globalPartnerInvested ts pid := by
  by_cases h : (t.partnerId == some pid &&
      (t.type == .INVESTMENT || t.type == .EXPENSE)) = true <;>
    simp [globalPartnerInvested, List.filter_cons, h]

theorem sum_map_ite_not_mem (partners : List Partner) (x : String) (a : ℚ)
    (hx : x ∉ partners.map Partner.id) :
    (partners.map (fun p => if x = p.id then a else 0)).sum = 0 := by
  induction partners with
  | nil => simp
  | cons p l ih =>
    simp only [List.map_cons, List.mem_cons] at hx
    push_neg at hx
    rw [List.map_cons, List.sum_cons, if_neg hx.1, ih hx.2]
    ring

theorem sum_map_ite_mem (partners : List Partner) (x : String) (a : ℚ)
    (hnd : (partners.map Partner.id).Nodup) (hx : x ∈ partners.map Partner.id) :
    (partners.map (fun p => if x = p.id then a else 0)).sum = a := by
  induction partners with
  | nil => simp at hx
  | cons p l ih =>
    rw [List.map_cons, List.nodup_cons] at hnd
    rw [List.map_cons, List.mem_cons] at hx
    rcases hx with rfl | hx
    · rw [List.map_cons, List.sum_cons, if_pos rfl, sum_map_ite_not_mem l p.id a hnd.1]
      ring
    · have hxp : x ≠ p.id := fun hc => hnd.1 (hc ▸ hx)
      rw [List.map_cons, List.sum_cons, if_neg hxp, ih hnd.2 hx]
      ring

theorem sum_map_mul_const {α : Type} (l : List α) (f : α → ℚ) (c : ℚ) :
    (l.map (fun x => f x * c)).sum = (l.map f).sum * c := by
  induction l with
  | nil => simp
  | cons a l ih => simp [ih]; ring

theorem sum_map_ite_false {α : Type} (l : List α) (c : α → Bool) (a : ℚ)
    (h : ∀ x, c x = false) : (l.map (fun x => if c x then a else 0)).sum = 0 := by
  induction l with
  | nil => simp
  | cons x l ih => simp [h x, ih]

theorem sum_map_congr {α : Type} (l : List α) (f g : α → ℚ)
    (h : ∀ x, f x = g x) : (l.map f).sum = (l.map g).sum := by
  induction l with
  | nil => simp
  | cons x l ih => simp [h x, ih]

theorem sum_map_gPI_cons (partners : List Partner) (t : Transaction)
    (ts : List Transaction) :
    (partners.map (fun p => globalPartnerInvested (t :: ts) p.id)).sum =
      (partners.map (fun p =>
        (if t.partnerId == some p.id &&
            (t.type == .INVESTMENT || t.type == .EXPENSE)
          then t.amount else 0))).sum +
      (partners.map (fun p => globalPartnerInvested ts p.id)).sum := by
  induction partners with
  | nil => simp
  | cons p l ih =>
    simp only [List.map_cons, List.sum_cons]
    rw [globalPartnerInvested_cons, ih]
    ring

theorem sum_partnerInvested_eq_total (partners : List Partner)
    (ts : List Transaction)
    (hnd : (partners.map Partner.id).Nodup)
    (hne : ∀ p ∈ partners, p.id ≠ "")
    (href : ∀ t ∈ ts, ∀ pid, t.partnerId = some pid → pid ∈ partners.map Partner.id)
    (hinv : ∀ t ∈ ts, t.type = .INVESTMENT → t.partnerId.isSome = true) :
    (partners.map (fun p => globalPartnerInvested ts p.id)).sum =
      (ts.map qualAmount).sum := by
  induction ts with
  | nil =>
    rw [show (fun p : Partner => globalPartnerInvested [] p.id) = fun _ => (0 : ℚ)
      from funext fun p => rfl, sum_map_zero]
    simp
  | cons t ts ih =>
    have hreft := href t (by simp)
    have hinvt := hinv t (by simp)
    have ihh := ih (fun x hx pid hp => href x (by simp [hx]) pid hp)
      (fun x hx h => hinv x (by simp [hx]) h)
    rw [List.map_cons, List.sum_cons, sum_map_gPI_cons, ihh]
    have hcontrib : (partners.map (fun p =>
        (if t.partnerId == some p.id &&
            (t.type == .INVESTMENT || t.type == .EXPENSE)
          then t.amount else 0))).sum = qualAmount t := by
      cases hpid : t.partnerId with
      | none =>
        rw [sum_map_ite_false partners _ t.amount (fun p => by simp [hpid])]
        cases htt : t.type with
        | INVESTMENT => exact absurd (hinvt htt) (by simp [hpid])
        | INCOME => simp [qualAmount, htt]
        | EXPENSE => simp [qualAmount, htt, strTruthy, hpid]
        | WITHDRAWAL => simp [qualAmount, htt]
      | some pid =>
        have hmem : pid ∈ partners.map Partner.id := hreft pid hpid
        have hpid_ne : pid ≠ "" := by
          obtain ⟨p, hp, hpeq⟩ := List.mem_map.mp hmem
          exact hpeq ▸ hne p hp
        by_cases hty : (t.type == TransactionType.INVESTMENT ||
            t.type == TransactionType.EXPENSE) = true
        · rw [sum_map_congr partners _
            (fun p : Partner => if pid = p.id then t.amount else 0)
            (fun p => by simp [hpid, hty]),
            sum_map_ite_mem partners pid t.amount hnd hmem]
          rcases Bool.or_eq_true_iff.mp hty with h1 | h2
          · have htt : t.type = .INVESTMENT := by simpa using h1
            simp [qualAmount, htt]
          · have htt : t.type = .EXPENSE := by simpa using h2
            simp [qualAmount, htt, strTruthy, hpid, hpid_ne]
        · have htyf : (t.type == TransactionType.INVESTMENT ||
              t.type == TransactionType.EXPENSE) = false := by
            simpa using hty
          rw [sum_map_ite_false partners _ t.amount
            (fun p => by simp [htyf])]
          have h1 : (t.type == TransactionType.INVESTMENT) = false := by
            rcases Bool.or_eq_false_iff.mp htyf with ⟨h, _⟩
            exact h
          have h2 : (t.type == TransactionType.EXPENSE) = false := by
            rcases Bool.or_eq_false_iff.mp htyf with ⟨_, h⟩
            exact h
          simp [qualAmount, h1, h2]
    rw [hcontrib]

/-- C6: on a well-formed snapshot (distinct, non-empty partner ids; every
present partnerId references an existing partner; every INVESTMENT has a
partnerId), each partner's share is the guarded quotient — 0 whenever the
global total investment is 0 (never NaN or infinity) — and whenever the
global total investment is positive the shares are invested/total*100 and
sum to exactly 100. -/
theorem c6_share_normalization (partners : List Partner) (ts : List Transaction)
    (hnd : (partners.map Partner.id).Nodup)
    (hne : ∀ p ∈ partners, p.id ≠ "")
    (href : ∀ t ∈ ts, ∀ pid, t.partnerId = some pid → pid ∈ partners.map Partner.id)
    (hinv : ∀ t ∈ ts, t.type = .INVESTMENT → t.partnerId.isSome = true) :
    (globalTotalInvestment ts = 0 → ∀ p ∈ partners, sharePercent ts p.id = 0) ∧
    (0 < globalTotalInvestment ts →
      (∀ p ∈ partners, sharePercent ts p.id =
        globalPartnerInvested ts p.id / globalTotalInvestment ts * 100) ∧
      (partners.map (fun p => sharePercent ts p.id)).sum = 100) := by
  constructor
  · intro h0 p _
    simp [sharePercent, h0]
  · intro hpos
    refine ⟨fun p _ => by simp [sharePercent, hpos], ?_⟩
    have hne0 : globalTotalInvestment ts ≠ 0 := ne_of_gt hpos
    rw [sum_map_congr partners _
      (fun p : Partner => globalPartnerInvested ts p.id * (100 / globalTotalInvestment ts))
      (fun p => by simp [sharePercent, hpos]; ring),
      sum_map_mul_const]
    have hsum := sum_partnerInvested_eq_total partners ts hnd hne href hinv
    rw [← globalTotalInvestment_eq] at hsum
    rw [hsum]
    field_simp

def partnerA : Partner :=
  { id := "p1", name := "Partner A", avatar := "a", color := "#818CF8" }

def partnerB : Partner :=
  { id := "p2", name := "Partner B", avatar := "b", color := "#34D399" }

def txA : Transaction :=
  { id := "t1", projectId := "projP", partnerId := some "p1",
    type := .INVESTMENT, amount := 500000, date := "2023-01-15", note := "" }

def txB : Transaction :=
  { id := "t2", projectId := "projP", partnerId := some "p2",
    type := .INVESTMENT, amount := 300000, date := "2023-01-16", note := "" }

/-- Witness for C6: with investments 500000 and 300000 the total is
positive and the two shares sum to exactly 100. -/
theorem c6_witness :
    (0 : ℚ) < globalTotalInvestment [txA, txB] ∧
    ([partnerA, partnerB].map (fun p => sharePercent [txA, txB] p.id)).sum = 100 := by
  have h := c6_share_normalization [partnerA, partnerB] [txA, txB]
    (by decide) (by decide)
    (by
      intro t ht pid hp
      simp only [List.mem_cons, List.not_mem_nil, or_false] at ht
      rcases ht with rfl | rfl
      · rw [show txA.partnerId = some "p1" from rfl] at hp
        injection hp with hpp
        subst hpp
        decide
      · rw [show txB.partnerId = some "p2" from rfl] at hp
        injection hp with hpp
        subst hpp
        decide)
    (by
      intro t ht _
      simp only [List.mem_cons, List.not_mem_nil, or_false] at ht
      rcases ht with rfl | rfl <;> rfl)
  have hpos : (0 : ℚ) < globalTotalInvestment [txA, txB] := by
    norm_num [globalTotalInvestment, txA, txB, strTruthy]
  exact ⟨hpos, (h.2 hpos).2⟩

theorem applySubmitEdit_project_source (data : AppState) (eid P Q : String)
    (ty : TransactionType) (A : ℚ) (d n fid : String) (q : Project)
    (hP : (P == "") = false)
    (hfind : data.projects.find? (fun p => p.id == Q) = some q) :
    applySubmitEdit data eid (some P) (some A) ty d n Q fid =
      { partners := data.partners, projects := data.projects,
        transactions :=
          data.transactions.map (fun x =>
            if x.id == eid then
              { id := eid, projectId := P, partnerId := none, type := ty,
                amount := A, date := d,
                note := n ++ " (แก้ไข: ดึงเงินจาก " ++ q.name ++ ")" }
            else x) ++
          [ { id := fid, projectId := q.id, partnerId := none, type := .EXPENSE,
              amount := A, date := d,
              note := "(ตัดยอดจากการแก้ไข) เงินถูกยืมไปโครงการ: " ++ findProjectName data P ++ " - " ++ n } ] } := by
  simp [applySubmitEdit, handleFormSubmitEdit, applyUpdateLocal, assignIds, hP, hfind]

/-- C7: editing an expense whose newly selected funding source is an
existing project `Q` rewrites the original transaction in place (same id,
partner id cleared, new amount) and appends exactly one fresh offsetting
EXPENSE of the same amount on `Q`; every other transaction — including any
previously created offsetting entry — is left untouched, so each such edit
grows the ledger by one entry and repeated edits accumulate offsets. -/
theorem c7_edit_fresh_offset (data : AppState) (eid P Q : String)
    (ty : TransactionType) (A : ℚ) (d n fid fid2 : String) (q : Project)
    (hP : P ≠ "")
    (hfind : data.projects.find? (fun p => p.id == Q) = some q)
    (hmem : ∃ t ∈ data.transactions, t.id = eid) :
    (applySubmitEdit data eid (some P) (some A) ty d n Q fid).partners =
      data.partners ∧
    (applySubmitEdit data eid (some P) (some A) ty d n Q fid).projects =
      data.projects ∧
    (∃ nu no,
      (applySubmitEdit data eid (some P) (some A) ty d n Q fid).transactions =
        data.transactions.map (fun x =>
          if x.id == eid then
            { id := eid, projectId := P, partnerId := none, type := ty,
              amount := A, date := d, note := nu }
          else x) ++
        [ { id := fid, projectId := q.id, partnerId := none, type := .EXPENSE,
            amount := A, date := d, note := no } ] ∧
      { id := eid, projectId := P, partnerId := none, type := ty,
        amount := A, date := d, note := nu } ∈
        (applySubmitEdit data eid (some P) (some A) ty d n Q fid).transactions) ∧
    (∀ t ∈ data.transactions, t.id ≠ eid →
      t ∈ (applySubmitEdit data eid (some P) (some A) ty d n Q fid).transactions) ∧
    (applySubmitEdit data eid (some P) (some A) ty d n Q fid).transactions.length =
      data.transactions.length + 1 ∧
    (applySubmitEdit (applySubmitEdit data eid (some P) (some A) ty d n Q fid)
        eid (some P) (some A) ty d n Q fid2).transactions.length =
      data.transactions.length + 2 := by
  have hPb : (P == "") = false := by simp [hP]
  have h1 := applySubmitEdit_project_source data eid P Q ty A d n fid q hPb hfind
  have h2 := applySubmitEdit_project_source
    (applySubmitEdit data eid (some P) (some A) ty d n Q fid)
    eid P Q ty A d n fid2 q hPb (by rw [h1]; exact hfind)
  refine ⟨by rw [h1], by rw [h1], ?_, ?_, ?_, ?_⟩
  · refine ⟨n ++ " (แก้ไข: ดึงเงินจาก " ++ q.name ++ ")",
      "(ตัดยอดจากการแก้ไข) เงินถูกยืมไปโครงการ: " ++ findProjectName data P ++ " - " ++ n,
      by rw [h1], ?_⟩
    obtain ⟨t, ht, htid⟩ := hmem
    rw [h1]
    refine List.mem_append_left _ (List.mem_map.mpr ⟨t, ht, ?_⟩)
    simp [htid]
  · intro t ht hne
    rw [h1]
    exact List.mem_append_left _ (List.mem_map.mpr ⟨t, ht, by simp [hne]⟩)
  · rw [h1]
    simp
  · rw [h2, h1]
    simp

def editState : AppState :=
  { partners := [partnerX], projects := [projP, projQ], transactions := [refTx] }

/-- Witness for C7: editing the single existing transaction toward funding
from `projQ` adds one offsetting entry, and editing again adds another. -/
theorem c7_witness :
    (applySubmitEdit editState "t1" (some "projP") (some 700) .EXPENSE
        "2023-07-01" "" "projQ" "f1").transactions.length =
      editState.transactions.length + 1 ∧
    (applySubmitEdit
        (applySubmitEdit editState "t1" (some "projP") (some 700) .EXPENSE
          "2023-07-01" "" "projQ" "f1")
        "t1" (some "projP") (some 700) .EXPENSE
        "2023-07-01" "" "projQ" "f2").transactions.length =
      editState.transactions.length + 2 := by
  have h := c7_edit_fresh_offset editState "t1" "projP" "projQ" .EXPENSE 700
    "2023-07-01" "" "f1" "f2" projQ (by decide) (by decide)
    ⟨refTx, by decide, by decide⟩
  exact ⟨h.2.2.2.2.1, h.2.2.2.2.2⟩
